import Mathlib

/-!
Shallow embedding of the "floor is lava" lane-runner simulation core
(src/components/GameEngine.tsx, src/constants.ts, src/App.tsx).

Numbers are modelled as rationals (`ℚ`); JS decimal literals appear as
exact fractions (1.1 = 11/10, 0.7 = 7/10, ...).  The per-frame obstacle
`forEach` of `updateGameLogic` is modelled as a left fold carrying an
accumulator `FrameAcc` mirroring the refs and React state it mutates
(`lastHitTimeRef`, `gameState.lives`, `gameState.gameOver`,
`gameState.score`, `scoreRef`, plus a counter of `playDamageSound` calls
standing for the fire-and-forget damage-feedback hook).  `performance.now()`
inside the collision branch is identified with the frame timestamp `time`.
-/

namespace FloorIsLava

/-! ### Constants (src/constants.ts, GAME_CONSTANTS) -/

def LANE_WIDTH : ℚ := 7/2
def JUMP_HEIGHT : ℚ := 7/2
def JUMP_DURATION : ℚ := 7/10
def START_SPEED : ℚ := 15
def MAX_SPEED : ℚ := 40
def SPAWN_DISTANCE : ℚ := -60
def SPAWN_INTERVAL_BASE : ℚ := 3/2
def INVINCIBILITY_DURATION : ℚ := 2000

/-- The literal `1.1` in `if (player.yPosition < 1.1)` (GameEngine.tsx:670),
the jump clearance height. -/
def JUMP_CLEARANCE : ℚ := 11/10

/-! ### Data model (src/types via usage in GameEngine.tsx) -/

/-- Gesture symbols produced by the external pose estimator. -/
inductive Gesture
  | JUMP
  | LEFT
  | RIGHT
  | NONE
deriving DecidableEq

/-- `playerStateRef` contents (`Player3D`). -/
structure Player3D where
  lane : ℕ
  isJumping : Bool
  jumpStartTime : ℚ
  yPosition : ℚ
deriving DecidableEq

/-- `obstaclesRef` entries (`Obstacle3D`).  `id` models the value of
`Math.random()` whose decimal string (`Math.random().toString()`) is the
JS id; the string conversion is injective, so id equality is draw
equality. -/
structure Obstacle3D where
  id : ℚ
  lane : ℕ
  z : ℚ
  type : String
  passed : Bool
deriving DecidableEq

/-! ### Input handling (GameEngine.tsx:326-335) -/

/-- One gesture applied to the player state, as in the input-handling
effect. -/
def applyGesture (g : Gesture) (now : ℚ) (p : Player3D) : Player3D :=
  match g with
  | Gesture.JUMP =>
      if p.isJumping then p
      else { p with isJumping := true, jumpStartTime := now }
  | Gesture.LEFT =>
      if 0 < p.lane then { p with lane := p.lane - 1 } else p
  | Gesture.RIGHT =>
      if p.lane < 2 then { p with lane := p.lane + 1 } else p
  | Gesture.NONE => p

/-! ### Difficulty (GameEngine.tsx:548-551) -/

/-- `speedRef.current = Math.min(MAX_SPEED, START_SPEED + score / 50)`. -/
def speedOf (score : ℕ) : ℚ :=
  min MAX_SPEED (START_SPEED + (score : ℚ) / 50)

/-- Modelled from the spec: `clamp(x, lo, hi)` as the spec's difficulty
formula words it, to be compared with the source's `speedOf`. -/
def clampSpec (x lo hi : ℚ) : ℚ := max lo (min hi x)

/-! ### Jump physics (GameEngine.tsx:575-584) -/

/-- The closed-form jump curve `JUMP_HEIGHT * 4 * t * (1 - t)`. -/
def jumpCurve (t : ℚ) : ℚ := JUMP_HEIGHT * 4 * t * (1 - t)

/-- Per-frame jump update: while jumping and `jumpProgress < JUMP_DURATION`
set `yPosition` on the parabola, otherwise land (`isJumping := false`,
`yPosition := 0`). -/
def updateJump (time : ℚ) (p : Player3D) : Player3D :=
  if p.isJumping then
    let jumpProgress := (time - p.jumpStartTime) / 1000
    if jumpProgress < JUMP_DURATION then
      { p with yPosition := jumpCurve (jumpProgress / JUMP_DURATION) }
    else
      { p with isJumping := false, yPosition := 0 }
  else p

/-! ### Spawning (GameEngine.tsx:515-541) -/

/-- `spawnObstacle`: lane is `Math.floor(Math.random() * 3)` for a draw
`randLane ∈ [0,1)`, id is the (injectively stringified) draw `randId`. -/
def spawnObstacle (randLane randId z : ℚ) : Obstacle3D :=
  { id := randId
    lane := (⌊randLane * 3⌋).toNat
    z := z
    type := "lava_block"
    passed := false }

/-! ### Per-frame obstacle processing (GameEngine.tsx:656-708) -/

/-- Accumulator for the obstacle `forEach`: the surviving/removed obstacle
bookkeeping plus every piece of mutable state the loop body touches. -/
structure FrameAcc where
  processed : List Obstacle3D
  toRemove : List ℚ
  lastHitTime : ℚ
  lives : ℕ
  gameOver : Bool
  reportedScore : ℕ
  score : ℕ
  damageEvents : ℕ
deriving DecidableEq

/-- `obs.z += speed * dt` (GameEngine.tsx:659). -/
def moveOb (speed dt : ℚ) (o : Obstacle3D) : Obstacle3D :=
  { o with z := o.z + speed * dt }

/-- The collision test of GameEngine.tsx:667-674: longitudinal band,
lane match, jump clearance, invincibility gate. -/
def hitCond (p : Player3D) (now lastHit : ℚ) (o : Obstacle3D) : Prop :=
  -1 < o.z ∧ o.z < 1 ∧ o.lane = p.lane ∧ p.yPosition < JUMP_CLEARANCE ∧
    INVINCIBILITY_DURATION < now - lastHit

instance (p : Player3D) (now lastHit : ℚ) (o : Obstacle3D) :
    Decidable (hitCond p now lastHit o) := by
  unfold hitCond
  exact inferInstance

/-- The collision branch (GameEngine.tsx:667-686): on a confirmed hit,
play the damage sound (counted), set `lastHitTimeRef := now` and apply the
functional `setGameState` update (`newLives = lives - 1`; at `≤ 0` go to
the terminal game-over state reporting the current score). -/
def collideOb (p : Player3D) (now : ℚ) (acc : FrameAcc) (o : Obstacle3D) :
    FrameAcc :=
  if hitCond p now acc.lastHitTime o then
    let newLives : ℤ := (acc.lives : ℤ) - 1
    if newLives ≤ 0 then
      { acc with
          lastHitTime := now
          damageEvents := acc.damageEvents + 1
          lives := 0
          gameOver := true
          reportedScore := acc.score }
    else
      { acc with
          lastHitTime := now
          damageEvents := acc.damageEvents + 1
          lives := acc.lives - 1 }
  else acc

/-- One obstacle of the `forEach` (GameEngine.tsx:658-697): advance,
collision-check, then the pass/retire branch `if (obs.z > 5)` which awards
`+10` once (`passed := true`) and schedules removal. -/
def obsStep (p : Player3D) (now speed dt : ℚ) (acc : FrameAcc)
    (o : Obstacle3D) : FrameAcc :=
  let o1 := moveOb speed dt o
  let acc1 := collideOb p now acc o1
  if 5 < o1.z then
    if o1.passed then
      { acc1 with
          toRemove := acc1.toRemove ++ [o1.id]
          processed := acc1.processed ++ [o1] }
    else
      { acc1 with
          score := acc1.score + 10
          toRemove := acc1.toRemove ++ [o1.id]
          processed := acc1.processed ++ [{ o1 with passed := true }] }
  else
    { acc1 with processed := acc1.processed ++ [o1] }

/-- The whole obstacle `forEach` as a fold. -/
def obstaclePhase (p : Player3D) (now speed dt : ℚ) (l : List Obstacle3D)
    (acc : FrameAcc) : FrameAcc :=
  l.foldl (obsStep p now speed dt) acc

/-- Only the collision part of the loop body, folded over the obstacle
list: "the collision check" of one frame, at a fixed timestamp. -/
def collidePhase (p : Player3D) (now : ℚ) (l : List Obstacle3D)
    (acc : FrameAcc) : FrameAcc :=
  l.foldl (collideOb p now) acc

/-- The gate-free part of the collision test (band, lane, clearance):
what qualifies an obstacle as a hit candidate before invincibility. -/
def qualifies (p : Player3D) (o : Obstacle3D) : Prop :=
  -1 < o.z ∧ o.z < 1 ∧ o.lane = p.lane ∧ p.yPosition < JUMP_CLEARANCE

instance (p : Player3D) (o : Obstacle3D) : Decidable (qualifies p o) := by
  unfold qualifies
  exact inferInstance

/-! ### Session state and the per-frame update -/

/-- `(lane - 1) * LANE_WIDTH` (GameEngine.tsx:569). -/
def targetX (lane : ℕ) : ℚ := ((lane : ℚ) - 1) * LANE_WIDTH

/-- One session's simulation state: `playerStateRef`, the render group's
x position (`playerGroupRef.position.x`), `obstaclesRef`, `scoreRef`,
`speedRef`, `lastHitTimeRef`, and the React `gameState` fields the core
mutates (`lives`, `gameOver`, and the reported `score`), plus the damage
hook counter. -/
structure SessionState where
  player : Player3D
  visualX : ℚ
  obstacles : List Obstacle3D
  score : ℕ
  speed : ℚ
  lives : ℕ
  gameOver : Bool
  reportedScore : ℕ
  lastHitTime : ℚ
  damageEvents : ℕ
deriving DecidableEq

/-- `updateGameLogic(dt, time)` restricted to the simulation state (the
purely cosmetic material/cloud/limb updates act only on the renderer):
difficulty, lane lerp, jump physics, optional obstacle spawn (the spawn
timer fires nondeterministically here; `spawn` carries the two random
draws), then the obstacle move/collide/pass fold and the id-keyed removal
filter (GameEngine.tsx:544-709). -/
def initAcc (s : SessionState) : FrameAcc :=
  { processed := []
    toRemove := []
    lastHitTime := s.lastHitTime
    lives := s.lives
    gameOver := s.gameOver
    reportedScore := s.reportedScore
    score := s.score
    damageEvents := s.damageEvents }

/-- The obstacle list entering the frame's `forEach`: the live obstacles
plus the obstacle freshly pushed by `spawnObstacle` (GameEngine.tsx:651-654)
when the spawn timer fired this frame. -/
def spawnedList (spawn : Option (ℚ × ℚ)) (l : List Obstacle3D) :
    List Obstacle3D :=
  match spawn with
  | some (rl, ri) => l ++ [spawnObstacle rl ri SPAWN_DISTANCE]
  | none => l

/-- The frame's obstacle fold, started from the session's mutable state. -/
def frameAcc (dt time : ℚ) (spawn : Option (ℚ × ℚ)) (s : SessionState) :
    FrameAcc :=
  obstaclePhase (updateJump time s.player) time (speedOf s.score) dt
    (spawnedList spawn s.obstacles) (initAcc s)

def updateGameLogic (dt time : ℚ) (spawn : Option (ℚ × ℚ))
    (s : SessionState) : SessionState :=
  { player := updateJump time s.player
    visualX := s.visualX + (targetX s.player.lane - s.visualX) * 10 * dt
    obstacles := (frameAcc dt time spawn s).processed.filter
      (fun o => decide (o.id ∉ (frameAcc dt time spawn s).toRemove))
    score := (frameAcc dt time spawn s).score
    speed := speedOf s.score
    lives := (frameAcc dt time spawn s).lives
    gameOver := (frameAcc dt time spawn s).gameOver
    reportedScore := (frameAcc dt time spawn s).reportedScore
    lastHitTime := (frameAcc dt time spawn s).lastHitTime
    damageEvents := (frameAcc dt time spawn s).damageEvents }

/-- The raw frame delta of the animation loop,
`(time - lastTimeRef.current) / 1000` (GameEngine.tsx:272) — used with no
clamping. -/
def frameDelta (time lastTime : ℚ) : ℚ := (time - lastTime) / 1000

/-- One animation-loop frame: the effect guard
`if (!gameState.isPlaying || gameState.gameOver) return` (GameEngine.tsx:252)
freezes simulation once the session is over (within a session,
`isPlaying` stays true). -/
def frameStep (dt time : ℚ) (spawn : Option (ℚ × ℚ)) (s : SessionState) :
    SessionState :=
  if s.gameOver then s else updateGameLogic dt time spawn s

/-- One gesture event: the input-handling effect is likewise guarded by
`gameState.gameOver` (GameEngine.tsx:321). -/
def gestureStep (g : Gesture) (now : ℚ) (s : SessionState) : SessionState :=
  if s.gameOver then s else { s with player := applyGesture g now s.player }

/-- Session start: `playerStateRef` reset (GameEngine.tsx:228-233) plus the
React initial/restart `gameState` (`lives: 3`, `score: 0`,
`gameOver: false`, src/App.tsx). -/
def initialState : SessionState :=
  { player := { lane := 1, isJumping := false, jumpStartTime := 0, yPosition := 0 }
    visualX := 0
    obstacles := []
    score := 0
    speed := START_SPEED
    lives := 3
    gameOver := false
    reportedScore := 0
    lastHitTime := 0
    damageEvents := 0 }

/-- States reachable within one session: the start state, then any
interleaving of gesture events and animation frames (with arbitrary
timestamps, deltas and spawn draws). -/
inductive Reachable : SessionState → Prop
  | init : Reachable initialState
  | gesture (g : Gesture) (now : ℚ) (s : SessionState) :
      Reachable s → Reachable (gestureStep g now s)
  | frame (dt time : ℚ) (spawn : Option (ℚ × ℚ)) (s : SessionState) :
      Reachable s → Reachable (frameStep dt time spawn s)

/-! ### Structural lemmas about the collision branch -/

lemma hitCond_iff (p : Player3D) (now lastHit : ℚ) (o : Obstacle3D) :
    hitCond p now lastHit o ↔
      qualifies p o ∧ INVINCIBILITY_DURATION < now - lastHit := by
  unfold hitCond qualifies
  tauto

lemma not_hitCond_of_closed {now lastHit : ℚ}
    (hg : ¬ INVINCIBILITY_DURATION < now - lastHit) (p : Player3D)
    (o : Obstacle3D) : ¬ hitCond p now lastHit o :=
  fun h => hg h.2.2.2.2

lemma gate_closed_self (now : ℚ) : ¬ INVINCIBILITY_DURATION < now - now := by
  norm_num [INVINCIBILITY_DURATION]

lemma not_hitCond_of_clearance {p : Player3D}
    (hy : JUMP_CLEARANCE ≤ p.yPosition) (now lastHit : ℚ) (o : Obstacle3D) :
    ¬ hitCond p now lastHit o :=
  fun h => absurd h.2.2.2.1 (not_lt.mpr hy)

lemma collideOb_of_not {p : Player3D} {now : ℚ} {acc : FrameAcc}
    {o : Obstacle3D} (h : ¬ hitCond p now acc.lastHitTime o) :
    collideOb p now acc o = acc := by
  unfold collideOb
  rw [if_neg h]

lemma collideOb_score (p : Player3D) (now : ℚ) (acc : FrameAcc)
    (o : Obstacle3D) : (collideOb p now acc o).score = acc.score := by
  simp only [collideOb]
  split
  · split <;> rfl
  · rfl

lemma collideOb_processed (p : Player3D) (now : ℚ) (acc : FrameAcc)
    (o : Obstacle3D) : (collideOb p now acc o).processed = acc.processed := by
  simp only [collideOb]
  split
  · split <;> rfl
  · rfl

lemma collideOb_toRemove (p : Player3D) (now : ℚ) (acc : FrameAcc)
    (o : Obstacle3D) : (collideOb p now acc o).toRemove = acc.toRemove := by
  simp only [collideOb]
  split
  · split <;> rfl
  · rfl

lemma collideOb_lives_of_hit {p : Player3D} {now : ℚ} {acc : FrameAcc}
    {o : Obstacle3D} (h : hitCond p now acc.lastHitTime o) :
    (collideOb p now acc o).lives = acc.lives - 1 := by
  unfold collideOb
  rw [if_pos h]
  dsimp only
  split
  · next h2 => simp only [FrameAcc.lives]; omega
  · rfl

lemma collideOb_lastHitTime_of_hit {p : Player3D} {now : ℚ} {acc : FrameAcc}
    {o : Obstacle3D} (h : hitCond p now acc.lastHitTime o) :
    (collideOb p now acc o).lastHitTime = now := by
  unfold collideOb
  rw [if_pos h]
  dsimp only
  split <;> rfl

lemma collideOb_damageEvents_of_hit {p : Player3D} {now : ℚ} {acc : FrameAcc}
    {o : Obstacle3D} (h : hitCond p now acc.lastHitTime o) :
    (collideOb p now acc o).damageEvents = acc.damageEvents + 1 := by
  unfold collideOb
  rw [if_pos h]
  dsimp only
  split <;> rfl

lemma collideOb_of_hit_nonterminal {p : Player3D} {now : ℚ} {acc : FrameAcc}
    {o : Obstacle3D} (h : hitCond p now acc.lastHitTime o)
    (hl : 2 ≤ acc.lives) :
    collideOb p now acc o =
      { acc with
          lastHitTime := now
          damageEvents := acc.damageEvents + 1
          lives := acc.lives - 1 } := by
  unfold collideOb
  rw [if_pos h]
  dsimp only
  rw [if_neg (by omega)]

lemma collideOb_of_hit_terminal {p : Player3D} {now : ℚ} {acc : FrameAcc}
    {o : Obstacle3D} (h : hitCond p now acc.lastHitTime o)
    (hl : acc.lives ≤ 1) :
    collideOb p now acc o =
      { acc with
          lastHitTime := now
          damageEvents := acc.damageEvents + 1
          lives := 0
          gameOver := true
          reportedScore := acc.score } := by
  unfold collideOb
  rw [if_pos h]
  dsimp only
  rw [if_pos (by omega)]

/-! ### Structural lemmas about one obstacle step -/

lemma moveOb_z (sp dt : ℚ) (o : Obstacle3D) :
    (moveOb sp dt o).z = o.z + sp * dt := rfl

lemma moveOb_passed (sp dt : ℚ) (o : Obstacle3D) :
    (moveOb sp dt o).passed = o.passed := rfl

lemma moveOb_id (sp dt : ℚ) (o : Obstacle3D) :
    (moveOb sp dt o).id = o.id := rfl

lemma moveOb_lane (sp dt : ℚ) (o : Obstacle3D) :
    (moveOb sp dt o).lane = o.lane := rfl

lemma obsStep_lives (p : Player3D) (now sp dt : ℚ) (acc : FrameAcc)
    (o : Obstacle3D) :
    (obsStep p now sp dt acc o).lives =
      (collideOb p now acc (moveOb sp dt o)).lives := by
  unfold obsStep
  dsimp only
  split
  · split <;> rfl
  · rfl

lemma obsStep_lastHitTime (p : Player3D) (now sp dt : ℚ) (acc : FrameAcc)
    (o : Obstacle3D) :
    (obsStep p now sp dt acc o).lastHitTime =
      (collideOb p now acc (moveOb sp dt o)).lastHitTime := by
  unfold obsStep
  dsimp only
  split
  · split <;> rfl
  · rfl

lemma obsStep_damageEvents (p : Player3D) (now sp dt : ℚ) (acc : FrameAcc)
    (o : Obstacle3D) :
    (obsStep p now sp dt acc o).damageEvents =
      (collideOb p now acc (moveOb sp dt o)).damageEvents := by
  unfold obsStep
  dsimp only
  split
  · split <;> rfl
  · rfl

lemma obsStep_gameOver (p : Player3D) (now sp dt : ℚ) (acc : FrameAcc)
    (o : Obstacle3D) :
    (obsStep p now sp dt acc o).gameOver =
      (collideOb p now acc (moveOb sp dt o)).gameOver := by
  unfold obsStep
  dsimp only
  split
  · split <;> rfl
  · rfl

lemma obsStep_reportedScore (p : Player3D) (now sp dt : ℚ) (acc : FrameAcc)
    (o : Obstacle3D) :
    (obsStep p now sp dt acc o).reportedScore =
      (collideOb p now acc (moveOb sp dt o)).reportedScore := by
  unfold obsStep
  dsimp only
  split
  · split <;> rfl
  · rfl

lemma obsStep_score (p : Player3D) (now sp dt : ℚ) (acc : FrameAcc)
    (o : Obstacle3D) :
    (obsStep p now sp dt acc o).score =
      if 5 < (moveOb sp dt o).z then
        (if (moveOb sp dt o).passed then acc.score else acc.score + 10)
      else acc.score := by
  unfold obsStep
  dsimp only
  split
  · split <;> simp [collideOb_score]
  · simp [collideOb_score]

lemma obsStep_score_le (p : Player3D) (now sp dt : ℚ) (acc : FrameAcc)
    (o : Obstacle3D) :
    acc.score ≤ (obsStep p now sp dt acc o).score := by
  rw [obsStep_score]
  split
  · split <;> omega
  · omega

lemma set_passed_self {o : Obstacle3D} (h : o.passed = true) :
    { o with passed := true } = o := by
  cases o
  simp_all

lemma obsStep_processed (p : Player3D) (now sp dt : ℚ) (acc : FrameAcc)
    (o : Obstacle3D) :
    (obsStep p now sp dt acc o).processed =
      acc.processed ++
        [if 5 < (moveOb sp dt o).z then { moveOb sp dt o with passed := true }
         else moveOb sp dt o] := by
  unfold obsStep
  dsimp only
  by_cases h5 : 5 < (moveOb sp dt o).z
  · rw [if_pos h5, if_pos h5]
    split
    · next hp =>
        rw [collideOb_processed, set_passed_self hp]
    · rw [collideOb_processed]
  · rw [if_neg h5, if_neg h5, collideOb_processed]

lemma obsStep_toRemove (p : Player3D) (now sp dt : ℚ) (acc : FrameAcc)
    (o : Obstacle3D) :
    (obsStep p now sp dt acc o).toRemove =
      if 5 < (moveOb sp dt o).z then acc.toRemove ++ [(moveOb sp dt o).id]
      else acc.toRemove := by
  unfold obsStep
  dsimp only
  by_cases h5 : 5 < (moveOb sp dt o).z
  · rw [if_pos h5, if_pos h5]
    split <;> rw [collideOb_toRemove]
  · rw [if_neg h5, if_neg h5, collideOb_toRemove]

/-! ### Fold lemmas for the obstacle phase -/

lemma obstaclePhase_nil (p : Player3D) (now sp dt : ℚ) (acc : FrameAcc) :
    obstaclePhase p now sp dt [] acc = acc := rfl

lemma obstaclePhase_cons (p : Player3D) (now sp dt : ℚ) (o : Obstacle3D)
    (l : List Obstacle3D) (acc : FrameAcc) :
    obstaclePhase p now sp dt (o :: l) acc =
      obstaclePhase p now sp dt l (obsStep p now sp dt acc o) := rfl

/-- If every obstacle in the list fails the (gate-free or gated) hit test,
or the invincibility gate is closed, the hit-related fields pass through
the whole fold unchanged.  Stated for an arbitrary per-obstacle
refutation. -/
lemma obstaclePhase_tuple_of_not (p : Player3D) (now sp dt : ℚ)
    (l : List Obstacle3D) (acc : FrameAcc)
    (h : ∀ acc2 : FrameAcc, acc2.lastHitTime = acc.lastHitTime →
      ∀ o ∈ l, ¬ hitCond p now acc2.lastHitTime (moveOb sp dt o)) :
    (obstaclePhase p now sp dt l acc).lives = acc.lives ∧
    (obstaclePhase p now sp dt l acc).lastHitTime = acc.lastHitTime ∧
    (obstaclePhase p now sp dt l acc).damageEvents = acc.damageEvents ∧
    (obstaclePhase p now sp dt l acc).gameOver = acc.gameOver ∧
    (obstaclePhase p now sp dt l acc).reportedScore = acc.reportedScore := by
  induction l generalizing acc with
  | nil => exact ⟨rfl, rfl, rfl, rfl, rfl⟩
  | cons o t ih =>
      rw [obstaclePhase_cons]
      have hno : ¬ hitCond p now acc.lastHitTime (moveOb sp dt o) :=
        h acc rfl o (List.mem_cons_self o t)
      have hco := collideOb_of_not hno
      have e1 : (obsStep p now sp dt acc o).lives = acc.lives := by
        rw [obsStep_lives, hco]
      have e2 : (obsStep p now sp dt acc o).lastHitTime = acc.lastHitTime := by
        rw [obsStep_lastHitTime, hco]
      have e3 : (obsStep p now sp dt acc o).damageEvents = acc.damageEvents := by
        rw [obsStep_damageEvents, hco]
      have e4 : (obsStep p now sp dt acc o).gameOver = acc.gameOver := by
        rw [obsStep_gameOver, hco]
      have e5 : (obsStep p now sp dt acc o).reportedScore = acc.reportedScore := by
        rw [obsStep_reportedScore, hco]
      have ih2 := ih (obsStep p now sp dt acc o)
        (fun acc2 h2 o2 ho2 => h acc2 (by rw [h2, e2]) o2 (List.mem_cons_of_mem o ho2))
      refine ⟨?_, ?_, ?_, ?_, ?_⟩
      · rw [ih2.1, e1]
      · rw [ih2.2.1, e2]
      · rw [ih2.2.2.1, e3]
      · rw [ih2.2.2.2.1, e4]
      · rw [ih2.2.2.2.2, e5]

/-- Once the invincibility gate is closed for the accumulator, the whole
fold leaves the hit fields unchanged. -/
lemma obstaclePhase_tuple_of_closed (p : Player3D) (now sp dt : ℚ)
    (l : List Obstacle3D) (acc : FrameAcc)
    (hg : ¬ INVINCIBILITY_DURATION < now - acc.lastHitTime) :
    (obstaclePhase p now sp dt l acc).lives = acc.lives ∧
    (obstaclePhase p now sp dt l acc).lastHitTime = acc.lastHitTime ∧
    (obstaclePhase p now sp dt l acc).damageEvents = acc.damageEvents ∧
    (obstaclePhase p now sp dt l acc).gameOver = acc.gameOver ∧
    (obstaclePhase p now sp dt l acc).reportedScore = acc.reportedScore := by
  refine obstaclePhase_tuple_of_not p now sp dt l acc ?_
  intro acc2 h2 o _
  rw [h2]
  exact not_hitCond_of_closed hg p (moveOb sp dt o)

/-- A player at or above the jump clearance takes no damage this frame. -/
lemma obstaclePhase_tuple_of_clearance (p : Player3D) (now sp dt : ℚ)
    (l : List Obstacle3D) (acc : FrameAcc)
    (hy : JUMP_CLEARANCE ≤ p.yPosition) :
    (obstaclePhase p now sp dt l acc).lives = acc.lives ∧
    (obstaclePhase p now sp dt l acc).lastHitTime = acc.lastHitTime ∧
    (obstaclePhase p now sp dt l acc).damageEvents = acc.damageEvents ∧
    (obstaclePhase p now sp dt l acc).gameOver = acc.gameOver ∧
    (obstaclePhase p now sp dt l acc).reportedScore = acc.reportedScore := by
  refine obstaclePhase_tuple_of_not p now sp dt l acc ?_
  intro acc2 _ o _
  exact not_hitCond_of_clearance hy now acc2.lastHitTime (moveOb sp dt o)

/-- Score never decreases across the obstacle fold. -/
lemma obstaclePhase_score_le (p : Player3D) (now sp dt : ℚ)
    (l : List Obstacle3D) (acc : FrameAcc) :
    acc.score ≤ (obstaclePhase p now sp dt l acc).score := by
  induction l generalizing acc with
  | nil => exact le_rfl
  | cons o t ih =>
      rw [obstaclePhase_cons]
      exact le_trans (obsStep_score_le p now sp dt acc o)
        (ih (obsStep p now sp dt acc o))

/-- Across one frame's obstacle fold, lives either stay put or drop by
exactly one (the invincibility gate closes after the first hit). -/
lemma obstaclePhase_lives_cases (p : Player3D) (now sp dt : ℚ)
    (l : List Obstacle3D) (acc : FrameAcc) :
    (obstaclePhase p now sp dt l acc).lives = acc.lives ∨
    (obstaclePhase p now sp dt l acc).lives + 1 = acc.lives := by
  induction l generalizing acc with
  | nil => exact Or.inl rfl
  | cons o t ih =>
      rw [obstaclePhase_cons]
      by_cases hc : hitCond p now acc.lastHitTime (moveOb sp dt o)
      · have e1 : (obsStep p now sp dt acc o).lives = acc.lives - 1 := by
          rw [obsStep_lives, collideOb_lives_of_hit hc]
        have e2 : (obsStep p now sp dt acc o).lastHitTime = now := by
          rw [obsStep_lastHitTime, collideOb_lastHitTime_of_hit hc]
        have hrest := obstaclePhase_tuple_of_closed p now sp dt t
          (obsStep p now sp dt acc o) (by rw [e2]; exact gate_closed_self now)
        rw [hrest.1, e1]
        omega
      · have hco := collideOb_of_not hc
        have e1 : (obsStep p now sp dt acc o).lives = acc.lives := by
          rw [obsStep_lives, hco]
        rcases ih (obsStep p now sp dt acc o) with h | h
        · exact Or.inl (by rw [h, e1])
        · exact Or.inr (by rw [h, e1])

/-! ### Fold lemmas for the collision-only phase (re-entrancy) -/

lemma collidePhase_nil (p : Player3D) (now : ℚ) (acc : FrameAcc) :
    collidePhase p now [] acc = acc := rfl

lemma collidePhase_cons (p : Player3D) (now : ℚ) (o : Obstacle3D)
    (l : List Obstacle3D) (acc : FrameAcc) :
    collidePhase p now (o :: l) acc =
      collidePhase p now l (collideOb p now acc o) := rfl

lemma collidePhase_of_closed (p : Player3D) (now : ℚ) (l : List Obstacle3D)
    (acc : FrameAcc) (hg : ¬ INVINCIBILITY_DURATION < now - acc.lastHitTime) :
    collidePhase p now l acc = acc := by
  induction l generalizing acc with
  | nil => rfl
  | cons o t ih =>
      rw [collidePhase_cons, collideOb_of_not (not_hitCond_of_closed hg p o)]
      exact ih acc hg

lemma collidePhase_cases (p : Player3D) (now : ℚ) (l : List Obstacle3D)
    (acc : FrameAcc) :
    collidePhase p now l acc = acc ∨
    (collidePhase p now l acc).lastHitTime = now := by
  induction l generalizing acc with
  | nil => exact Or.inl rfl
  | cons o t ih =>
      rw [collidePhase_cons]
      by_cases hc : hitCond p now acc.lastHitTime o
      · right
        have e2 : (collideOb p now acc o).lastHitTime = now :=
          collideOb_lastHitTime_of_hit hc
        rw [collidePhase_of_closed p now t (collideOb p now acc o)
          (by rw [e2]; exact gate_closed_self now)]
        exact e2
      · rw [collideOb_of_not hc]
        exact ih acc

lemma collidePhase_damage_le (p : Player3D) (now : ℚ) (l : List Obstacle3D)
    (acc : FrameAcc) :
    (collidePhase p now l acc).damageEvents ≤ acc.damageEvents + 1 := by
  induction l generalizing acc with
  | nil => exact Nat.le_succ _
  | cons o t ih =>
      rw [collidePhase_cons]
      by_cases hc : hitCond p now acc.lastHitTime o
      · have e2 : (collideOb p now acc o).lastHitTime = now :=
          collideOb_lastHitTime_of_hit hc
        rw [collidePhase_of_closed p now t (collideOb p now acc o)
          (by rw [e2]; exact gate_closed_self now)]
        rw [collideOb_damageEvents_of_hit hc]
      · rw [collideOb_of_not hc]
        exact ih acc

/-- Exact characterisation of a life loss in one frame's obstacle fold:
with the invincibility gate open and at least one life, the hit fields
change (in the unique hit pattern) precisely when some obstacle, at its
post-advance position, is in the band, in the player's lane, and the
player is below the clearance. -/
lemma obstaclePhase_hit_iff (p : Player3D) (now sp dt : ℚ)
    (l : List Obstacle3D) (acc : FrameAcc) (hl : 1 ≤ acc.lives)
    (hg : INVINCIBILITY_DURATION < now - acc.lastHitTime) :
    ((obstaclePhase p now sp dt l acc).lives = acc.lives - 1 ∧
     (obstaclePhase p now sp dt l acc).lastHitTime = now ∧
     (obstaclePhase p now sp dt l acc).damageEvents = acc.damageEvents + 1) ↔
    ∃ o ∈ l, qualifies p (moveOb sp dt o) := by
  induction l generalizing acc with
  | nil =>
      rw [obstaclePhase_nil]
      constructor
      · rintro ⟨h1, -, -⟩
        exact absurd h1 (by omega)
      · rintro ⟨o, ho, -⟩
        exact absurd ho (List.not_mem_nil o)
  | cons o t ih =>
      rw [obstaclePhase_cons]
      by_cases hq : qualifies p (moveOb sp dt o)
      · have hc : hitCond p now acc.lastHitTime (moveOb sp dt o) :=
          (hitCond_iff p now acc.lastHitTime (moveOb sp dt o)).mpr ⟨hq, hg⟩
        have e1 : (obsStep p now sp dt acc o).lives = acc.lives - 1 := by
          rw [obsStep_lives, collideOb_lives_of_hit hc]
        have e2 : (obsStep p now sp dt acc o).lastHitTime = now := by
          rw [obsStep_lastHitTime, collideOb_lastHitTime_of_hit hc]
        have e3 : (obsStep p now sp dt acc o).damageEvents =
            acc.damageEvents + 1 := by
          rw [obsStep_damageEvents, collideOb_damageEvents_of_hit hc]
        have hrest := obstaclePhase_tuple_of_closed p now sp dt t
          (obsStep p now sp dt acc o) (by rw [e2]; exact gate_closed_self now)
        refine iff_of_true ⟨?_, ?_, ?_⟩ ⟨o, List.mem_cons_self o t, hq⟩
        · rw [hrest.1, e1]
        · rw [hrest.2.1, e2]
        · rw [hrest.2.2.1, e3]
      · have hc : ¬ hitCond p now acc.lastHitTime (moveOb sp dt o) :=
          fun h => hq ((hitCond_iff p now acc.lastHitTime (moveOb sp dt o)).mp h).1
        have hco := collideOb_of_not hc
        have e1 : (obsStep p now sp dt acc o).lives = acc.lives := by
          rw [obsStep_lives, hco]
        have e2 : (obsStep p now sp dt acc o).lastHitTime = acc.lastHitTime := by
          rw [obsStep_lastHitTime, hco]
        have e3 : (obsStep p now sp dt acc o).damageEvents =
            acc.damageEvents := by
          rw [obsStep_damageEvents, hco]
        have ih2 := ih (obsStep p now sp dt acc o) (by rw [e1]; exact hl)
          (by rw [e2]; exact hg)
        rw [e1, e3] at ih2
        rw [ih2]
        constructor
        · rintro ⟨o2, ho2, hq2⟩
          exact ⟨o2, List.mem_cons_of_mem o ho2, hq2⟩
        · rintro ⟨o2, ho2, hq2⟩
          rcases List.mem_cons.mp ho2 with he | ht
          · exact absurd (he ▸ hq2) hq
          · exact ⟨o2, ht, hq2⟩

/-! ### Reachability invariants -/

lemma updateJump_lane (time : ℚ) (p : Player3D) :
    (updateJump time p).lane = p.lane := by
  simp only [updateJump]
  split
  · split <;> rfl
  · rfl

lemma applyGesture_lane_le (g : Gesture) (now : ℚ) (p : Player3D)
    (hp : p.lane ≤ 2) : (applyGesture g now p).lane ≤ 2 := by
  cases g <;> unfold applyGesture <;> dsimp only
  · split <;> exact hp
  · split
    · exact le_trans (Nat.sub_le _ _) hp
    · exact hp
  · split
    · next h =>
        show p.lane + 1 ≤ 2
        omega
    · exact hp
  · exact hp

lemma updateGameLogic_player (dt time : ℚ) (spawn : Option (ℚ × ℚ))
    (s : SessionState) :
    (updateGameLogic dt time spawn s).player = updateJump time s.player := rfl

/-- The logical lane is always one of {0, 1, 2} in any reachable state. -/
lemma reachable_lane_le {s : SessionState} (h : Reachable s) :
    s.player.lane ≤ 2 := by
  induction h with
  | init => norm_num [initialState]
  | gesture g now s _ ih =>
      unfold gestureStep
      split
      · exact ih
      · exact applyGesture_lane_le g now s.player ih
  | frame dt time spawn s _ ih =>
      unfold frameStep
      split
      · exact ih
      · rw [updateGameLogic_player, updateJump_lane]
        exact ih

lemma spawnObstacle_passed (rl ri z : ℚ) :
    (spawnObstacle rl ri z).passed = false := rfl

/-- Within the fold, every processed obstacle is either unpassed or
scheduled for removal, provided the incoming list is all unpassed. -/
lemma obstaclePhase_passed_inv (p : Player3D) (now sp dt : ℚ)
    (l : List Obstacle3D) (acc : FrameAcc)
    (hl : ∀ o ∈ l, o.passed = false)
    (hacc : ∀ ob ∈ acc.processed, ob.passed = false ∨ ob.id ∈ acc.toRemove) :
    ∀ ob ∈ (obstaclePhase p now sp dt l acc).processed,
      ob.passed = false ∨ ob.id ∈ (obstaclePhase p now sp dt l acc).toRemove := by
  induction l generalizing acc with
  | nil => exact hacc
  | cons o t ih =>
      rw [obstaclePhase_cons]
      refine ih (obsStep p now sp dt acc o)
        (fun o2 ho2 => hl o2 (List.mem_cons_of_mem o ho2)) ?_
      intro ob hob
      have hpass : o.passed = false := hl o (List.mem_cons_self o t)
      rw [obsStep_processed] at hob
      rw [obsStep_toRemove]
      rcases List.mem_append.mp hob with hin | hnew
      · rcases hacc ob hin with hf | hr
        · exact Or.inl hf
        · right
          split
          · exact List.mem_append_left _ hr
          · exact hr
      · have he := List.mem_singleton.mp hnew
        by_cases h5 : 5 < (moveOb sp dt o).z
        · rw [if_pos h5] at he
          right
          rw [if_pos h5, he]
          exact List.mem_append_right _ (List.mem_singleton.mpr rfl)
        · rw [if_neg h5] at he
          left
          rw [he, moveOb_passed]
          exact hpass

/-- Live obstacles of a reachable state are never marked `passed`: an
obstacle that scores is retired in the same frame. -/
lemma reachable_passed_false {s : SessionState} (h : Reachable s) :
    ∀ o ∈ s.obstacles, o.passed = false := by
  induction h with
  | init => intro o ho; exact absurd ho (List.not_mem_nil o)
  | gesture g now s _ ih =>
      unfold gestureStep
      split
      · exact ih
      · exact ih
  | frame dt time spawn s _ ih =>
      unfold frameStep
      split
      · exact ih
      · intro o ho
        have ho2 := List.mem_filter.mp ho
        have hall : ∀ ob ∈ spawnedList spawn s.obstacles, ob.passed = false := by
          unfold spawnedList
          match spawn with
          | some (rl, ri) =>
              intro ob hob
              rcases List.mem_append.mp hob with hin | hnew
              · exact ih ob hin
              · rw [List.mem_singleton.mp hnew]
                exact spawnObstacle_passed rl ri SPAWN_DISTANCE
          | none => exact ih
        have hinv := obstaclePhase_passed_inv (updateJump time s.player) time
          (speedOf s.score) dt (spawnedList spawn s.obstacles) (initAcc s) hall
          (by intro ob hob; exact absurd hob (List.not_mem_nil ob))
          o ho2.1
        rcases hinv with hf | hr
        · exact hf
        · exfalso
          have := ho2.2
          simp only [decide_eq_true_eq] at this
          exact this hr

/-! ### Lives/game-over invariant -/

lemma collideOb_gameOver_of_hit_nonterminal {p : Player3D} {now : ℚ}
    {acc : FrameAcc} {o : Obstacle3D} (h : hitCond p now acc.lastHitTime o)
    (hl : 2 ≤ acc.lives) :
    (collideOb p now acc o).gameOver = acc.gameOver := by
  rw [collideOb_of_hit_nonterminal h hl]

lemma collideOb_reported_of_hit_nonterminal {p : Player3D} {now : ℚ}
    {acc : FrameAcc} {o : Obstacle3D} (h : hitCond p now acc.lastHitTime o)
    (hl : 2 ≤ acc.lives) :
    (collideOb p now acc o).reportedScore = acc.reportedScore := by
  rw [collideOb_of_hit_nonterminal h hl]

lemma collideOb_lives_of_hit_terminal {p : Player3D} {now : ℚ}
    {acc : FrameAcc} {o : Obstacle3D} (h : hitCond p now acc.lastHitTime o)
    (hl : acc.lives ≤ 1) : (collideOb p now acc o).lives = 0 := by
  rw [collideOb_of_hit_terminal h hl]

lemma collideOb_gameOver_of_hit_terminal {p : Player3D} {now : ℚ}
    {acc : FrameAcc} {o : Obstacle3D} (h : hitCond p now acc.lastHitTime o)
    (hl : acc.lives ≤ 1) : (collideOb p now acc o).gameOver = true := by
  rw [collideOb_of_hit_terminal h hl]

lemma collideOb_reported_of_hit_terminal {p : Player3D} {now : ℚ}
    {acc : FrameAcc} {o : Obstacle3D} (h : hitCond p now acc.lastHitTime o)
    (hl : acc.lives ≤ 1) :
    (collideOb p now acc o).reportedScore = acc.score := by
  rw [collideOb_of_hit_terminal h hl]

/-- Invariant carried through one frame's obstacle fold. -/
def AccInv (now : ℚ) (acc : FrameAcc) : Prop :=
  acc.lives ≤ 3 ∧
  (acc.gameOver = true →
    acc.lives = 0 ∧ acc.lastHitTime = now ∧ acc.reportedScore ≤ acc.score) ∧
  (acc.gameOver = false → 1 ≤ acc.lives ∧ acc.reportedScore = 0)

lemma obsStep_AccInv (p : Player3D) (now sp dt : ℚ) (acc : FrameAcc)
    (o : Obstacle3D) (h : AccInv now acc) :
    AccInv now (obsStep p now sp dt acc o) := by
  rcases h with ⟨h1, h2, h3⟩
  by_cases hc : hitCond p now acc.lastHitTime (moveOb sp dt o)
  · have hgate : INVINCIBILITY_DURATION < now - acc.lastHitTime := hc.2.2.2.2
    have hngo : acc.gameOver = false := by
      cases hb : acc.gameOver
      · rfl
      · exfalso
        have hlt := (h2 hb).2.1
        rw [hlt] at hgate
        exact gate_closed_self now hgate
    have hrep : acc.reportedScore = 0 := (h3 hngo).2
    by_cases hterm : acc.lives ≤ 1
    · refine ⟨?_, ?_, ?_⟩
      · rw [obsStep_lives, collideOb_lives_of_hit_terminal hc hterm]
        norm_num
      · intro _
        refine ⟨?_, ?_, ?_⟩
        · rw [obsStep_lives, collideOb_lives_of_hit_terminal hc hterm]
        · rw [obsStep_lastHitTime, collideOb_lastHitTime_of_hit hc]
        · rw [obsStep_reportedScore, collideOb_reported_of_hit_terminal hc hterm]
          exact obsStep_score_le p now sp dt acc o
      · intro hfo
        rw [obsStep_gameOver, collideOb_gameOver_of_hit_terminal hc hterm] at hfo
        exact absurd hfo (by simp)
    · have hl2 : 2 ≤ acc.lives := by omega
      refine ⟨?_, ?_, ?_⟩
      · rw [obsStep_lives, collideOb_lives_of_hit hc]
        omega
      · intro hgo
        rw [obsStep_gameOver, collideOb_gameOver_of_hit_nonterminal hc hl2] at hgo
        rw [hngo] at hgo
        exact absurd hgo (by simp)
      · intro _
        refine ⟨?_, ?_⟩
        · rw [obsStep_lives, collideOb_lives_of_hit hc]
          omega
        · rw [obsStep_reportedScore, collideOb_reported_of_hit_nonterminal hc hl2]
          exact hrep
  · have hco := collideOb_of_not hc
    refine ⟨?_, ?_, ?_⟩
    · rw [obsStep_lives, hco]
      exact h1
    · intro hgo
      rw [obsStep_gameOver, hco] at hgo
      obtain ⟨ha, hb2, hc2⟩ := h2 hgo
      refine ⟨?_, ?_, ?_⟩
      · rw [obsStep_lives, hco]
        exact ha
      · rw [obsStep_lastHitTime, hco]
        exact hb2
      · rw [obsStep_reportedScore, hco]
        exact le_trans hc2 (obsStep_score_le p now sp dt acc o)
    · intro hgo
      rw [obsStep_gameOver, hco] at hgo
      obtain ⟨ha, hb2⟩ := h3 hgo
      refine ⟨?_, ?_⟩
      · rw [obsStep_lives, hco]
        exact ha
      · rw [obsStep_reportedScore, hco]
        exact hb2

lemma obstaclePhase_AccInv (p : Player3D) (now sp dt : ℚ)
    (l : List Obstacle3D) (acc : FrameAcc) (h : AccInv now acc) :
    AccInv now (obstaclePhase p now sp dt l acc) := by
  induction l generalizing acc with
  | nil => exact h
  | cons o t ih =>
      rw [obstaclePhase_cons]
      exact ih (obsStep p now sp dt acc o) (obsStep_AccInv p now sp dt acc o h)

/-- Session-level invariant: lives bounded, game over exactly at zero
lives, and the reported score consistent. -/
def Inv (s : SessionState) : Prop :=
  s.lives ≤ 3 ∧ (s.gameOver = true ↔ s.lives = 0) ∧
  (s.gameOver = true → s.reportedScore ≤ s.score) ∧
  (s.gameOver = false → s.reportedScore = 0)

lemma updateGameLogic_lives (dt time : ℚ) (spawn : Option (ℚ × ℚ))
    (s : SessionState) :
    (updateGameLogic dt time spawn s).lives = (frameAcc dt time spawn s).lives :=
  rfl

lemma updateGameLogic_gameOver (dt time : ℚ) (spawn : Option (ℚ × ℚ))
    (s : SessionState) :
    (updateGameLogic dt time spawn s).gameOver =
      (frameAcc dt time spawn s).gameOver := rfl

lemma updateGameLogic_reported (dt time : ℚ) (spawn : Option (ℚ × ℚ))
    (s : SessionState) :
    (updateGameLogic dt time spawn s).reportedScore =
      (frameAcc dt time spawn s).reportedScore := rfl

lemma updateGameLogic_score (dt time : ℚ) (spawn : Option (ℚ × ℚ))
    (s : SessionState) :
    (updateGameLogic dt time spawn s).score = (frameAcc dt time spawn s).score :=
  rfl

lemma updateGameLogic_speed (dt time : ℚ) (spawn : Option (ℚ × ℚ))
    (s : SessionState) :
    (updateGameLogic dt time spawn s).speed = speedOf s.score := rfl

lemma initAcc_AccInv (now : ℚ) (s : SessionState) (h : Inv s)
    (hngo : s.gameOver = false) : AccInv now (initAcc s) := by
  rcases h with ⟨h1, h2, _, h4⟩
  refine ⟨h1, ?_, ?_⟩
  · intro hgo
    have : s.gameOver = true := hgo
    rw [hngo] at this
    exact absurd this (by simp)
  · intro _
    refine ⟨?_, h4 hngo⟩
    have : ¬ s.lives = 0 := fun h0 => by
      have := h2.mpr h0
      rw [hngo] at this
      exact absurd this (by simp)
    show 1 ≤ s.lives
    omega

lemma updateGameLogic_Inv (dt time : ℚ) (spawn : Option (ℚ × ℚ))
    (s : SessionState) (h : Inv s) (hngo : s.gameOver = false) :
    Inv (updateGameLogic dt time spawn s) := by
  have hacc : AccInv time (frameAcc dt time spawn s) :=
    obstaclePhase_AccInv (updateJump time s.player) time (speedOf s.score) dt
      (spawnedList spawn s.obstacles) (initAcc s) (initAcc_AccInv time s h hngo)
  rcases hacc with ⟨h1, h2, h3⟩
  refine ⟨?_, ⟨?_, ?_⟩, ?_, ?_⟩
  · rw [updateGameLogic_lives]
    exact h1
  · intro hgo
    rw [updateGameLogic_gameOver] at hgo
    rw [updateGameLogic_lives]
    exact (h2 hgo).1
  · intro h0
    rw [updateGameLogic_lives] at h0
    rw [updateGameLogic_gameOver]
    cases hb : (frameAcc dt time spawn s).gameOver
    · exfalso
      have := (h3 hb).1
      omega
    · rfl
  · intro hgo
    rw [updateGameLogic_gameOver] at hgo
    rw [updateGameLogic_reported, updateGameLogic_score]
    exact (h2 hgo).2.2
  · intro hgo
    rw [updateGameLogic_gameOver] at hgo
    rw [updateGameLogic_reported]
    exact (h3 hgo).2

lemma not_gameOver_true {s : SessionState} (hb : s.gameOver = false) :
    ¬ (s.gameOver = true) := fun h => by
  rw [hb] at h
  exact absurd h (by simp)

/-- Every reachable state satisfies the lives/game-over invariant. -/
lemma reachable_Inv {s : SessionState} (h : Reachable s) : Inv s := by
  induction h with
  | init =>
      refine ⟨by norm_num [initialState], ?_, ?_, ?_⟩
      · constructor
        · intro hgo
          exact absurd hgo (by norm_num [initialState])
        · intro h0
          exact absurd h0 (by norm_num [initialState])
      · intro hgo
        exact absurd hgo (by norm_num [initialState])
      · intro _
        norm_num [initialState]
  | gesture g now s _ ih =>
      unfold gestureStep
      split
      · exact ih
      · exact ih
  | frame dt time spawn s _ ih =>
      unfold frameStep
      cases hb : s.gameOver
      · rw [if_neg (by simp)]
        exact updateGameLogic_Inv dt time spawn s ih hb
      · rw [if_pos rfl]
        exact ih

/-- Per frame, lives stay put or drop by exactly one. -/
lemma frameStep_lives_cases (dt time : ℚ) (spawn : Option (ℚ × ℚ))
    (s : SessionState) :
    (frameStep dt time spawn s).lives = s.lives ∨
    (frameStep dt time spawn s).lives + 1 = s.lives := by
  unfold frameStep
  split
  · exact Or.inl rfl
  · rcases obstaclePhase_lives_cases (updateJump time s.player) time
      (speedOf s.score) dt (spawnedList spawn s.obstacles) (initAcc s) with h | h
    · exact Or.inl h
    · exact Or.inr h

/-- A finished session is frozen: neither frames nor gestures change it. -/
lemma frameStep_frozen (dt time : ℚ) (spawn : Option (ℚ × ℚ))
    (s : SessionState) (hgo : s.gameOver = true) :
    frameStep dt time spawn s = s := by
  unfold frameStep
  rw [if_pos hgo]

lemma gestureStep_frozen (g : Gesture) (now : ℚ) (s : SessionState)
    (hgo : s.gameOver = true) : gestureStep g now s = s := by
  unfold gestureStep
  rw [if_pos hgo]

/-! ### Jump-update unfolding lemmas -/

lemma updateJump_of_lt {time : ℚ} {p : Player3D} (hj : p.isJumping = true)
    (hlt : (time - p.jumpStartTime) / 1000 < JUMP_DURATION) :
    updateJump time p =
      { p with
          yPosition := jumpCurve (((time - p.jumpStartTime) / 1000) /
            JUMP_DURATION) } := by
  simp only [updateJump]
  rw [if_pos hj, if_pos hlt]

lemma updateJump_of_ge {time : ℚ} {p : Player3D} (hj : p.isJumping = true)
    (hge : JUMP_DURATION ≤ (time - p.jumpStartTime) / 1000) :
    updateJump time p = { p with isJumping := false, yPosition := 0 } := by
  simp only [updateJump]
  rw [if_pos hj, if_neg (not_lt.mpr hge)]

/-! ### Claim theorems -/

/-- C1: in any frame's obstacle pass, the player loses a life exactly when
some obstacle sits (post-advance) in the band `(-1, 1)` in the player's
lane while `yPosition < 1.1` — given the player is not invincible and has
a life to lose; the confirmed hit decrements lives by exactly one, sets
`lastHitTime = now` and fires the damage hook exactly once; with
`yPosition ≥ 1.1`, or with the invincibility gate closed, nothing of the
sort happens. -/
theorem C1_confirmed_hit (p : Player3D) (now sp dt : ℚ)
    (l : List Obstacle3D) (acc : FrameAcc) (hl : 1 ≤ acc.lives) :
    (INVINCIBILITY_DURATION < now - acc.lastHitTime →
      (((obstaclePhase p now sp dt l acc).lives = acc.lives - 1 ∧
        (obstaclePhase p now sp dt l acc).lastHitTime = now ∧
        (obstaclePhase p now sp dt l acc).damageEvents =
          acc.damageEvents + 1) ↔
       ∃ o ∈ l, qualifies p (moveOb sp dt o))) ∧
    (JUMP_CLEARANCE ≤ p.yPosition →
      (obstaclePhase p now sp dt l acc).lives = acc.lives ∧
      (obstaclePhase p now sp dt l acc).lastHitTime = acc.lastHitTime ∧
      (obstaclePhase p now sp dt l acc).damageEvents = acc.damageEvents) ∧
    (¬ INVINCIBILITY_DURATION < now - acc.lastHitTime →
      (obstaclePhase p now sp dt l acc).lives = acc.lives ∧
      (obstaclePhase p now sp dt l acc).lastHitTime = acc.lastHitTime ∧
      (obstaclePhase p now sp dt l acc).damageEvents = acc.damageEvents) := by
  refine ⟨fun hg => obstaclePhase_hit_iff p now sp dt l acc hl hg,
    fun hy => ?_, fun hg => ?_⟩
  · obtain ⟨a, b, c, -, -⟩ :=
      obstaclePhase_tuple_of_clearance p now sp dt l acc hy
    exact ⟨a, b, c⟩
  · obtain ⟨a, b, c, -, -⟩ := obstaclePhase_tuple_of_closed p now sp dt l acc hg
    exact ⟨a, b, c⟩

/-- Witness for C1 at a concrete hit: center lane, obstacle at z = 0,
3000 ms after the last hit. -/
theorem C1_confirmed_hit_witness :
    (obstaclePhase ⟨1, false, 0, 0⟩ 3000 15 0
      [⟨1/2, 1, 0, "lava_block", false⟩]
      ⟨[], [], 0, 3, false, 0, 0, 0⟩).lives = 2 := by
  have h := (C1_confirmed_hit ⟨1, false, 0, 0⟩ 3000 15 0
      [⟨1/2, 1, 0, "lava_block", false⟩]
      ⟨[], [], 0, 3, false, 0, 0, 0⟩ (by norm_num)).1
      (by norm_num [INVINCIBILITY_DURATION])
  have h2 := h.mpr ⟨⟨1/2, 1, 0, "lava_block", false⟩,
    List.mem_singleton.mpr rfl, by norm_num [qualifies, moveOb, JUMP_CLEARANCE]⟩
  rw [h2.1]
  rfl

/-- C2: while jumping with `elapsed/1000 < JUMP_DURATION`, `yPosition`
follows `JUMP_HEIGHT * 4 * t * (1 - t)` with `t = (elapsed/1000) /
JUMP_DURATION`; the curve is 0 at `t = 0`, 0 at `t = 1` (its limit as
`t → 1`), and `JUMP_HEIGHT` at `t = 1/2`; once `elapsed/1000 ≥
JUMP_DURATION` the player is grounded with `yPosition = 0`. -/
theorem C2_jump_parabola (p : Player3D) (time : ℚ)
    (hj : p.isJumping = true) :
    ((time - p.jumpStartTime) / 1000 < JUMP_DURATION →
      (updateJump time p).yPosition =
        JUMP_HEIGHT * 4 * (((time - p.jumpStartTime) / 1000) / JUMP_DURATION) *
          (1 - ((time - p.jumpStartTime) / 1000) / JUMP_DURATION) ∧
      (updateJump time p).isJumping = true) ∧
    (JUMP_DURATION ≤ (time - p.jumpStartTime) / 1000 →
      (updateJump time p).isJumping = false ∧
      (updateJump time p).yPosition = 0) ∧
    jumpCurve 0 = 0 ∧ jumpCurve 1 = 0 ∧ jumpCurve (1/2) = JUMP_HEIGHT := by
  refine ⟨fun hlt => ?_, fun hge => ?_, by norm_num [jumpCurve],
    by norm_num [jumpCurve], by norm_num [jumpCurve, JUMP_HEIGHT]⟩
  · rw [updateJump_of_lt hj hlt]
    exact ⟨rfl, hj⟩
  · rw [updateJump_of_ge hj hge]
    exact ⟨rfl, rfl⟩

/-- Witness for C2: a 350 ms-old jump (half of the 0.7 s duration) is at
the apex height 3.5. -/
theorem C2_jump_parabola_witness :
    (updateJump 350 ⟨1, true, 0, 0⟩).yPosition = 7/2 := by
  have h := (C2_jump_parabola ⟨1, true, 0, 0⟩ 350 rfl).1
    (by norm_num [JUMP_DURATION])
  rw [h.1]
  norm_num [JUMP_HEIGHT, JUMP_DURATION]

/-- C3: the speed recomputed each frame equals the spec's clamp formula,
always lies in `[START_SPEED, MAX_SPEED]`, is monotone in score, and the
frame update derives it purely from the current score. -/
theorem C3_speed_clamp (s1 s2 : ℕ) (h : s1 ≤ s2) (dt time : ℚ)
    (spawn : Option (ℚ × ℚ)) (st : SessionState) :
    speedOf s1 = clampSpec (START_SPEED + (s1 : ℚ) / 50) START_SPEED MAX_SPEED ∧
    START_SPEED ≤ speedOf s1 ∧ speedOf s1 ≤ MAX_SPEED ∧
    speedOf s1 ≤ speedOf s2 ∧
    (updateGameLogic dt time spawn st).speed = speedOf st.score := by
  have h0 : (0 : ℚ) ≤ (s1 : ℚ) / 50 := by positivity
  have hlo : START_SPEED ≤ min MAX_SPEED (START_SPEED + (s1 : ℚ) / 50) :=
    le_min (by norm_num [START_SPEED, MAX_SPEED]) (by linarith)
  refine ⟨?_, hlo, min_le_left _ _, ?_, rfl⟩
  · unfold speedOf clampSpec
    exact (max_eq_right hlo).symm
  · unfold speedOf
    have hc : (s1 : ℚ) ≤ (s2 : ℚ) := by exact_mod_cast h
    have h2 : START_SPEED + (s1 : ℚ) / 50 ≤ START_SPEED + (s2 : ℚ) / 50 := by
      linarith
    exact min_le_min le_rfl h2

/-- Witness for C3 at scores 0 and 100. -/
theorem C3_speed_clamp_witness :
    START_SPEED ≤ speedOf 0 ∧ speedOf 0 ≤ MAX_SPEED ∧ speedOf 0 ≤ speedOf 100 := by
  have h := C3_speed_clamp 0 100 (by norm_num) 0 0 none initialState
  exact ⟨h.2.1, h.2.2.1, h.2.2.2.1⟩

/-- C4: every reachable session state has `lives ∈ [0, 3]`, is game-over
exactly when lives are exhausted, and a finished session is frozen (no
frame or gesture changes it) with its reported final score consistent;
moreover a single frame never drops more than one life. -/
theorem C4_lives_invariant (s : SessionState) (h : Reachable s) :
    s.lives ≤ 3 ∧ (s.gameOver = true ↔ s.lives = 0) ∧
    (s.gameOver = true →
      (∀ (dt time : ℚ) (spawn : Option (ℚ × ℚ)),
        frameStep dt time spawn s = s) ∧
      (∀ (g : Gesture) (now : ℚ), gestureStep g now s = s) ∧
      s.reportedScore ≤ s.score) ∧
    (∀ (dt time : ℚ) (spawn : Option (ℚ × ℚ)),
      (frameStep dt time spawn s).lives = s.lives ∨
      (frameStep dt time spawn s).lives + 1 = s.lives) := by
  obtain ⟨h1, h2, h3, -⟩ := reachable_Inv h
  exact ⟨h1, h2,
    fun hgo => ⟨fun dt time spawn => frameStep_frozen dt time spawn s hgo,
      fun g now => gestureStep_frozen g now s hgo, h3 hgo⟩,
    fun dt time spawn => frameStep_lives_cases dt time spawn s⟩

/-- Witness for C4 at the session start state. -/
theorem C4_lives_invariant_witness :
    initialState.lives ≤ 3 ∧
      (initialState.gameOver = true ↔ initialState.lives = 0) := by
  have h := C4_lives_invariant initialState Reachable.init
  exact ⟨h.1, h.2.1⟩

/-- C5 (counterexample): the claim says the "passed" threshold is reached
before the retirement threshold; in the code both are the same `z > 5`
branch — at a concrete obstacle past that threshold, the very step that
awards the +10 also schedules the obstacle's removal, so passing is never
reached strictly before retirement. -/
theorem C5_pass_counterexample :
    (obsStep ⟨1, false, 0, 0⟩ 0 15 0 ⟨[], [], 0, 3, false, 0, 0, 0⟩
      ⟨1/3, 0, 6, "lava_block", false⟩).score = 10 ∧
    (1/3 : ℚ) ∈ (obsStep ⟨1, false, 0, 0⟩ 0 15 0 ⟨[], [], 0, 3, false, 0, 0, 0⟩
      ⟨1/3, 0, 6, "lava_block", false⟩).toRemove := by
  norm_num [obsStep, collideOb, moveOb, hitCond, JUMP_CLEARANCE,
    INVINCIBILITY_DURATION]

/-- C5 (amended): every obstacle crossing `z > 5` unpassed awards exactly
+10 in that step and is retired in that same step (pass and retirement
thresholds coincide); the award is independent of the player (so
independent of any collision); score never decreases over the fold nor
over a frame; and live obstacles of a reachable state are never marked
passed, so no obstacle can award twice. -/
theorem C5_pass_scoring (p : Player3D) (now sp dt : ℚ) (acc : FrameAcc)
    (o : Obstacle3D) (l : List Obstacle3D) (s : SessionState)
    (h5 : 5 < o.z + sp * dt) (hnp : o.passed = false) (hs : Reachable s) :
    (obsStep p now sp dt acc o).score = acc.score + 10 ∧
    o.id ∈ (obsStep p now sp dt acc o).toRemove ∧
    (∀ p2 : Player3D, (obsStep p2 now sp dt acc o).score = acc.score + 10) ∧
    (∀ acc0 : FrameAcc, acc0.score ≤ (obstaclePhase p now sp dt l acc0).score) ∧
    (∀ ob ∈ s.obstacles, ob.passed = false) ∧
    (∀ (dt2 time2 : ℚ) (spawn : Option (ℚ × ℚ)),
      s.score ≤ (frameStep dt2 time2 spawn s).score) := by
  have hz : 5 < (moveOb sp dt o).z := by
    rw [moveOb_z]
    exact h5
  have hsc : ∀ p2 : Player3D,
      (obsStep p2 now sp dt acc o).score = acc.score + 10 := by
    intro p2
    rw [obsStep_score, if_pos hz, moveOb_passed, hnp]
    rw [if_neg (by simp)]
  refine ⟨hsc p, ?_, hsc,
    fun acc0 => obstaclePhase_score_le p now sp dt l acc0,
    reachable_passed_false hs, ?_⟩
  · rw [obsStep_toRemove, if_pos hz, moveOb_id]
    exact List.mem_append_right _ (List.mem_singleton.mpr rfl)
  · intro dt2 time2 spawn
    unfold frameStep
    split
    · exact le_rfl
    · rw [updateGameLogic_score]
      exact obstaclePhase_score_le (updateJump time2 s.player) time2
        (speedOf s.score) dt2 (spawnedList spawn s.obstacles) (initAcc s)

/-- Witness for the amended C5 at a concrete passing obstacle. -/
theorem C5_pass_scoring_witness :
    (obsStep ⟨0, false, 0, 0⟩ 0 15 (1/10) ⟨[], [], 0, 3, false, 0, 0, 0⟩
      ⟨1/4, 2, 4, "lava_block", false⟩).score = 0 + 10 := by
  have h := C5_pass_scoring ⟨0, false, 0, 0⟩ 0 15 (1/10)
    ⟨[], [], 0, 3, false, 0, 0, 0⟩ ⟨1/4, 2, 4, "lava_block", false⟩ []
    initialState (by norm_num) rfl Reachable.init
  exact h.1

/-- C6: re-running the frame's collision check at the same timestamp is a
no-op — after a confirmed hit, `lastHitTime = now` closes the
invincibility gate (its duration 2000 being positive), so the second pass
changes nothing and lives are not decremented twice; and a single pass
fires at most one damage event. -/
theorem C6_collision_idempotent (p : Player3D) (now : ℚ)
    (l : List Obstacle3D) (acc : FrameAcc) :
    collidePhase p now l (collidePhase p now l acc) =
      collidePhase p now l acc ∧
    (collidePhase p now l acc).damageEvents ≤ acc.damageEvents + 1 := by
  constructor
  · rcases collidePhase_cases p now l acc with h | h
    · rw [h]
      exact h
    · exact collidePhase_of_closed p now l _
        (by rw [h]; exact gate_closed_self now)
  · exact collidePhase_damage_le p now l acc

/-- C7: LEFT decrements and RIGHT increments the logical lane immediately,
clamped to `[0, 2]` (no-ops at the boundaries); every gesture keeps the
lane in `{0, 1, 2}`, as does every reachable state; and the frame update's
hit outcome is a function of the logical lane, not of the lerped visual x
position (changing `visualX` changes neither lives nor `lastHitTime`). -/
theorem C7_lane_gestures (g : Gesture) (t : ℚ) (p : Player3D)
    (s : SessionState) (hs : Reachable s) (hp : p.lane ≤ 2)
    (dt time : ℚ) (spawn : Option (ℚ × ℚ)) (st : SessionState) (a b : ℚ) :
    (applyGesture Gesture.LEFT t p).lane =
      (if 0 < p.lane then p.lane - 1 else p.lane) ∧
    (applyGesture Gesture.RIGHT t p).lane =
      (if p.lane < 2 then p.lane + 1 else p.lane) ∧
    (applyGesture g t p).lane ≤ 2 ∧
    s.player.lane ≤ 2 ∧
    (updateGameLogic dt time spawn { st with visualX := a }).lives =
      (updateGameLogic dt time spawn { st with visualX := b }).lives ∧
    (updateGameLogic dt time spawn { st with visualX := a }).lastHitTime =
      (updateGameLogic dt time spawn { st with visualX := b }).lastHitTime := by
  refine ⟨?_, ?_, applyGesture_lane_le g t p hp, reachable_lane_le hs,
    rfl, rfl⟩
  · by_cases h : 0 < p.lane <;> simp [applyGesture, h]
  · by_cases h : p.lane < 2 <;> simp [applyGesture, h]

/-- Witness for C7: a LEFT from the center lane lands in lane 0. -/
theorem C7_lane_gestures_witness :
    (applyGesture Gesture.LEFT 0 ⟨1, false, 0, 0⟩).lane = 0 := by
  have h := (C7_lane_gestures Gesture.LEFT 0 ⟨1, false, 0, 0⟩ initialState
    Reachable.init (by norm_num) 0 0 none initialState 0 0).1
  rw [h]
  norm_num

/-- C8 (counterexample): the animation loop computes
`delta = (time - lastTime)/1000` and uses it with no clamping; at
`time = 900 < lastTime = 1000` the delta is negative and the frame moves
the obstacle from `z = 0` backwards to `z = -3/2` — entity z positions do
decrease, so no clamping to zero happens. -/
theorem C8_delta_counterexample :
    frameDelta 900 1000 < 0 ∧
    ((updateGameLogic (frameDelta 900 1000) 900 none
        { player := ⟨1, false, 0, 0⟩
          visualX := 0
          obstacles := [⟨0, 0, 0, "lava_block", false⟩]
          score := 0
          speed := 15
          lives := 3
          gameOver := false
          reportedScore := 0
          lastHitTime := 0
          damageEvents := 0 }).obstacles.map (fun o => o.z)) = [-(3/2)] ∧
    (-(3/2) : ℚ) < 0 := by
  refine ⟨by norm_num [frameDelta], ?_, by norm_num⟩
  norm_num [updateGameLogic, frameAcc, initAcc, spawnedList, obstaclePhase,
    obsStep, collideOb, moveOb, hitCond, updateJump, speedOf, frameDelta,
    List.foldl, JUMP_CLEARANCE, INVINCIBILITY_DURATION, MAX_SPEED,
    START_SPEED, List.filter]

/-- C8 (amended): the delta is used exactly as computed,
`(time - lastTime)/1000`; whenever the computed delta is non-negative
(which holds whenever frame timestamps do not decrease) no entity z
decreases, since the speed is always positive — but nothing clamps a
negative delta. -/
theorem C8_delta_nonneg (dt sp t0 t1 : ℚ) (o : Obstacle3D) (hdt : 0 ≤ dt)
    (hsp : 0 ≤ sp) (ht : t0 ≤ t1) :
    o.z ≤ (moveOb sp dt o).z ∧ 0 ≤ frameDelta t1 t0 ∧
    ∀ n : ℕ, 0 < speedOf n := by
  refine ⟨?_, ?_, ?_⟩
  · rw [moveOb_z]
    have := mul_nonneg hsp hdt
    linarith
  · unfold frameDelta
    apply div_nonneg (by linarith) (by norm_num)
  · intro n
    unfold speedOf
    apply lt_min
    · norm_num [MAX_SPEED]
    · have h2 : (0 : ℚ) ≤ (n : ℚ) / 50 := by positivity
      norm_num [START_SPEED]
      linarith

/-- Witness for the amended C8 at concrete values. -/
theorem C8_delta_nonneg_witness :
    (⟨0, 0, 7, "lava_block", false⟩ : Obstacle3D).z ≤
      (moveOb 15 (1/10) ⟨0, 0, 7, "lava_block", false⟩).z :=
  (C8_delta_nonneg (1/10) 15 0 1 ⟨0, 0, 7, "lava_block", false⟩
    (by norm_num) (by norm_num) (by norm_num)).1

/-- C9 (counterexample): ids are the (stringified) `Math.random()` draws;
two spawns whose draws coincide yield two distinct obstacles (here in
different lanes) with the same id, so id generation does not by itself
exclude collisions within a session. -/
theorem C9_id_counterexample :
    (spawnObstacle 0 (1/2) SPAWN_DISTANCE).id =
      (spawnObstacle (2/3) (1/2) SPAWN_DISTANCE).id ∧
    (spawnObstacle 0 (1/2) SPAWN_DISTANCE).lane ≠
      (spawnObstacle (2/3) (1/2) SPAWN_DISTANCE).lane := by
  constructor
  · rfl
  · norm_num [spawnObstacle]
    decide

/-- C9 (amended): a spawned obstacle's id is exactly its random draw, so
two spawned entities get distinct ids precisely when their draws are
distinct — distinctness is probabilistic, not guaranteed by the
generator. -/
theorem C9_distinct_ids (r1 r2 z1 z2 i1 i2 : ℚ) (h : i1 ≠ i2) :
    (spawnObstacle r1 i1 z1).id = i1 ∧
    (spawnObstacle r1 i1 z1).passed = false ∧
    (spawnObstacle r1 i1 z1).id ≠ (spawnObstacle r2 i2 z2).id :=
  ⟨rfl, rfl, h⟩

/-- Witness for the amended C9 with two distinct draws. -/
theorem C9_distinct_ids_witness :
    (spawnObstacle 0 (1/2) SPAWN_DISTANCE).id ≠
      (spawnObstacle 0 (1/3) SPAWN_DISTANCE).id :=
  (C9_distinct_ids 0 0 SPAWN_DISTANCE SPAWN_DISTANCE (1/2) (1/3)
    (by norm_num)).2.2

/-- C10: every confirmed hit changes only `lastHitTime`, `lives` and the
damage-hook count — and, on the terminal hit (lives ≤ 1), additionally the
`gameOver` flag and the reported score (set to the unchanged score
accumulator): the score itself, the removal schedule and the live
collection (the hit obstacle stays, `passed` untouched) are unchanged on
every hit, `gameOver`/`reportedScore` are unchanged on any non-terminal
hit, the player state is never written by collision, and once the
invincibility window has elapsed the same obstacle, still in the band,
hits again. -/
theorem C10_hit_effect (p : Player3D) (now sp dt : ℚ) (acc : FrameAcc)
    (o : Obstacle3D) (hq : qualifies p (moveOb sp dt o))
    (hg : INVINCIBILITY_DURATION < now - acc.lastHitTime) :
    (obsStep p now sp dt acc o).lives = acc.lives - 1 ∧
    (obsStep p now sp dt acc o).lastHitTime = now ∧
    (obsStep p now sp dt acc o).damageEvents = acc.damageEvents + 1 ∧
    (obsStep p now sp dt acc o).score = acc.score ∧
    (obsStep p now sp dt acc o).toRemove = acc.toRemove ∧
    (obsStep p now sp dt acc o).processed = acc.processed ++ [moveOb sp dt o] ∧
    (moveOb sp dt o).passed = o.passed ∧
    (2 ≤ acc.lives →
      (obsStep p now sp dt acc o).gameOver = acc.gameOver ∧
      (obsStep p now sp dt acc o).reportedScore = acc.reportedScore) ∧
    (acc.lives ≤ 1 →
      (obsStep p now sp dt acc o).lives = 0 ∧
      (obsStep p now sp dt acc o).gameOver = true ∧
      (obsStep p now sp dt acc o).reportedScore = acc.score) ∧
    (∀ now2 : ℚ, INVINCIBILITY_DURATION < now2 - now →
      (collideOb p now2 (obsStep p now sp dt acc o) (moveOb sp dt o)).lives =
        acc.lives - 2) ∧
    (∀ (dt2 time2 : ℚ) (spawn : Option (ℚ × ℚ)) (st : SessionState),
      (updateGameLogic dt2 time2 spawn st).player = updateJump time2 st.player) := by
  have hc : hitCond p now acc.lastHitTime (moveOb sp dt o) :=
    (hitCond_iff p now acc.lastHitTime (moveOb sp dt o)).mpr ⟨hq, hg⟩
  have h5 : ¬ 5 < (moveOb sp dt o).z := by
    have hz : (moveOb sp dt o).z < 1 := hq.2.1
    linarith
  have e2 : (obsStep p now sp dt acc o).lastHitTime = now := by
    rw [obsStep_lastHitTime, collideOb_lastHitTime_of_hit hc]
  refine ⟨?_, e2, ?_, ?_, ?_, ?_, moveOb_passed sp dt o, fun hl => ⟨?_, ?_⟩,
    fun hterm => ⟨?_, ?_, ?_⟩, ?_, fun dt2 time2 spawn st => rfl⟩
  · rw [obsStep_lives, collideOb_lives_of_hit hc]
  · rw [obsStep_damageEvents, collideOb_damageEvents_of_hit hc]
  · rw [obsStep_score, if_neg h5]
  · rw [obsStep_toRemove, if_neg h5]
  · rw [obsStep_processed, if_neg h5]
  · rw [obsStep_gameOver, collideOb_gameOver_of_hit_nonterminal hc hl]
  · rw [obsStep_reportedScore, collideOb_reported_of_hit_nonterminal hc hl]
  · rw [obsStep_lives, collideOb_lives_of_hit_terminal hc hterm]
  · rw [obsStep_gameOver, collideOb_gameOver_of_hit_terminal hc hterm]
  · rw [obsStep_reportedScore, collideOb_reported_of_hit_terminal hc hterm]
  · intro now2 hg2
    have hc2 : hitCond p now2 (obsStep p now sp dt acc o).lastHitTime
        (moveOb sp dt o) := by
      rw [e2]
      exact (hitCond_iff p now2 now (moveOb sp dt o)).mpr ⟨hq, hg2⟩
    rw [collideOb_lives_of_hit hc2, obsStep_lives, collideOb_lives_of_hit hc]
    omega

/-- Witness for C10 exercising the terminal hit: in-band obstacle on the
last life; score stays, lives drop to 0, gameOver transitions. -/
theorem C10_hit_effect_witness :
    (obsStep ⟨1, false, 0, 0⟩ 3000 15 0 ⟨[], [], 0, 1, false, 0, 0, 0⟩
      ⟨1/2, 1, 0, "lava_block", false⟩).score = 0 ∧
    (obsStep ⟨1, false, 0, 0⟩ 3000 15 0 ⟨[], [], 0, 1, false, 0, 0, 0⟩
      ⟨1/2, 1, 0, "lava_block", false⟩).lives = 0 ∧
    (obsStep ⟨1, false, 0, 0⟩ 3000 15 0 ⟨[], [], 0, 1, false, 0, 0, 0⟩
      ⟨1/2, 1, 0, "lava_block", false⟩).gameOver = true := by
  have h := C10_hit_effect ⟨1, false, 0, 0⟩ 3000 15 0
    ⟨[], [], 0, 1, false, 0, 0, 0⟩ ⟨1/2, 1, 0, "lava_block", false⟩
    (by norm_num [qualifies, moveOb, JUMP_CLEARANCE])
    (by norm_num [INVINCIBILITY_DURATION])
  have hterm := h.2.2.2.2.2.2.2.2.1 (by norm_num)
  exact ⟨h.2.2.2.1, hterm.1, hterm.2.1⟩

end FloorIsLava
